import Mathlib

/-!
Verification of the retrieval-augmented query engine of the FTL_Myanmar_Gr3
backend (services/cache_service.py, services/rag_service.py,
services/translation_service.py), as a shallow embedding in Lean 4.

Modelling conventions:
* Python floats are modelled as rationals (ℚ); the score arithmetic of the
  ranker uses only +, *, -, / and comparisons, so ℚ is exact where the float
  code is approximate.
* The SHA-256 cache key of cache_service.get_cache_key is modelled by its
  preimage string "operation:text": the digest is deterministic and assumed
  collision-free, so the preimage is an equivalent key.
* The process-wide dict _cache is modelled as an association list with
  prepend-on-write (dict assignment overwrites; lookup finds the newest
  binding first).  Since the Python dict holds values of any type, each
  view each service has of the cache is modelled at the value type of that service.
* External network calls (remote embedding, local embedding model, answer
  generation, vector search) are parameters of the Lean functions.
-/

/-! ## cache_service.py -/

/-- The in-memory cache, keyed by the (modelled) cache key. -/
abbrev Cache (V : Type) := List (String × V)

/-- Model of get_cache_key: the SHA-256 digest of "operation:text" is
modelled by the preimage string itself (deterministic, collision-free). -/
def get_cache_key (text operation : String) : String :=
  operation ++ ":" ++ text

/-- Model of get_cached_result: dict .get on the key, None when absent. -/
def get_cached_result {V : Type} (cache : Cache V) (text operation : String) : Option V :=
  cache.lookup (get_cache_key text operation)

/-- Model of set_cached_result: dict assignment (overwriting write). -/
def set_cached_result {V : Type} (cache : Cache V) (text operation : String) (result : V) :
    Cache V :=
  (get_cache_key text operation, result) :: cache

/-- Python truthiness of a string: the empty string is falsy. -/
def pyTruthyString (s : String) : Bool := !(s == "")

/-- Output of one memoized computation (spec 4.5 computeOrFetch; the code
pattern of translation_service.translate_to_burmese lines 19-32). -/
structure FetchOut (V : Type) where
  result : V
  elapsed_ms : ℚ
  from_cache : Bool
  cache : Cache V
  invoked : Bool
  deriving Repr, DecidableEq

/-- Model of the memoization pattern around get_cached_result /
set_cached_result: check the cache, and on a hit (present AND truthy, the
Python "if cached:" test) return it with elapsed time 0; otherwise invoke
the compute function, store and return its result with the measured elapsed
time (an arbitrary parameter here).  The invoked flag records whether the
expensive function ran. -/
def computeOrFetch {V : Type} (truthy : V → Bool) (cache : Cache V)
    (text operation : String) (f : Unit → V) (elapsed : ℚ) : FetchOut V :=
  match (get_cached_result cache text operation).filter truthy with
  | some v => ⟨v, 0, true, cache, false⟩
  | none =>
    let v := f ()
    ⟨v, elapsed, false, set_cached_result cache text operation v, true⟩

/-- Two successive memoized calls with the identical (operation, text) pair. -/
def twoCalls {V : Type} (truthy : V → Bool) (cache : Cache V)
    (text operation : String) (f : Unit → V) (e₁ e₂ : ℚ) : FetchOut V × FetchOut V :=
  let r₁ := computeOrFetch truthy cache text operation f e₁
  (r₁, computeOrFetch truthy r₁.cache text operation f e₂)

/-! ## rag_service.py: chunking (lines 33-64) -/

/-- A chunk as produced by the two chunking strategies. -/
structure Chunk where
  chunk_id : String
  text : String
  start_time : Option ℚ
  end_time : Option ℚ
  source_type : String
  deriving Repr, DecidableEq

/-- An ASR segment dict: the keys "start", "end", "text" may each be absent.
The "end" key is modelled by the field stop since end is a Lean keyword. -/
structure Seg where
  start : Option ℚ
  stop : Option ℚ
  text : Option String
  deriving Repr, DecidableEq

/-- Model of chunk_transcript_by_segments: one chunk per segment, id
"seg_" + index, text seg.get("text", ""), times seg.get("start"/"end"). -/
def chunk_transcript_by_segments (segments : List Seg) : List Chunk :=
  segments.mapIdx fun i seg =>
    ⟨"seg_" ++ toString i, seg.text.getD "", seg.start, seg.stop, "asr_segment"⟩

/-- Sentence-terminal punctuation of the splitting regex. -/
def isTermChar (c : Char) : Bool := c == '.' || c == '!' || c == '?'

/-- Whether the previously consumed character (head of the reversed
accumulator) is sentence-terminal punctuation. -/
def headIsTerm : List Char → Bool
  | [] => false
  | c :: _ => isTermChar c

/-- State machine for the Python regex split on a whitespace run preceded by
sentence-terminal punctuation.  The first argument is true while consuming a
separator (a maximal whitespace run whose first character follows . ! or ?),
the second is the current sentence accumulated in reverse. -/
def splitAux : Bool → List Char → List Char → List (List Char)
  | _, acc, [] => [acc.reverse]
  | true, acc, c :: rest =>
    if c.isWhitespace then splitAux true acc rest
    else splitAux false [c] rest
  | false, acc, c :: rest =>
    if c.isWhitespace && headIsTerm acc then
      acc.reverse :: splitAux true [] rest
    else splitAux false (c :: acc) rest

/-- Model of the sentence split in chunk_transcript_by_text line 48. -/
def splitSentences (text : List Char) : List (List Char) :=
  splitAux false [] text

/-- Python truthiness of chunk_text.strip(): some non-whitespace character. -/
def hasNonWs (t : List Char) : Bool := t.any fun c => !c.isWhitespace

/-- One candidate window chunk: joined with single spaces, kept only when it
is not whitespace-only, with id "text_" + window start index. -/
def textChunk (i : Nat) (w : List (List Char)) : List Chunk :=
  let t := List.intercalate [' '] w
  if hasNonWs t then [⟨"text_" ++ toString i, String.mk t, none, none, "text_chunk"⟩]
  else []

/-- The loop for i in range(0, len(sentences), window_size - overlap) with
window sentences[i : i+5] and stride 3, written so that the list argument is
always drop i of the sentence list. -/
def chunkWindows : Nat → List (List Char) → List Chunk
  | _, [] => []
  | i, s0 :: rest =>
    match rest with
    | [] => textChunk i [s0]
    | [s1] => textChunk i [s0, s1]
    | s1 :: s2 :: rest' =>
      textChunk i (s0 :: s1 :: s2 :: rest'.take 2) ++ chunkWindows (i + 3) rest'

/-- Model of chunk_transcript_by_text (lines 46-64): overlapping windows of
5 sentences with stride 3. -/
def chunk_transcript_by_text (text : String) : List Chunk :=
  chunkWindows 0 (splitSentences text.data)

/-! ## rag_service.py: embeddings (lines 66-92) -/

/-- Truncation applied per text on the remote embedding path (line 78). -/
def truncate8000 (t : String) : String :=
  if t.length > 8000 then t.take 8000 else t

/-- Model of compute_embeddings.  The remote provider call (one call per
text, which may raise) is a parameter returning none on failure; the local
sentence-transformers fallback is a parameter which may itself fail (an
exception there propagates).  A missing GEMINI_API_KEY raises ValueError
before the try block, so the error string is returned without consulting
either provider; any remote failure discards all vectors obtained so far and
re-embeds the whole batch, untruncated, with the local model. -/
def compute_embeddings (apiKey : Option String) (remote : String → Option (List ℚ))
    (localModel : List String → Except String (List (List ℚ)))
    (texts : List String) : Except String (List (List ℚ)) :=
  match apiKey with
  | none => .error "GEMINI_API_KEY not found"
  | some _ =>
    match texts.mapM (fun t => remote (truncate8000 t)) with
    | some embeddings => .ok embeddings
    | none => localModel texts

/-! ## rag_service.py: the ChromaDB collection store (lines 10-16, 130-169) -/

/-- One stored (id, document, metadata) record.  The metadata dict holds
source_type always and start_time / end_time only when present (the None
filter of lines 146-153); the embedding vector is stored alongside but never
read back by the code under verification, so it is not modelled here. -/
structure StoredChunk where
  chunk_id : String
  document : String
  source_type : String
  start_time : Option ℚ
  end_time : Option ℚ
  deriving Repr, DecidableEq

/-- The persistent ChromaDB client state: named collections. -/
abbrev Collections := List (String × List StoredChunk)

/-- Module-level constant of rag_service.py line 16, used by
build_rag_index and query_rag. -/
def collection_name : String := "transcript_chunks"

/-- Default value of the collection_name parameter of get_index_stats,
get_all_chunks and clear_index (lines 286, 329, 351). -/
def stats_default_collection : String := "lecture_transcript"

/-- Model of chroma_client.get_collection: None models the raised
"collection does not exist" error. -/
def getCollection (cols : Collections) (name : String) : Option (List StoredChunk) :=
  cols.lookup name

/-- Model of chroma_client.delete_collection on an existing name. -/
def deleteCollection (cols : Collections) (name : String) : Collections :=
  cols.filter fun p => !(p.1 == name)

/-- Model of create_collection followed by collection.add. -/
def setCollection (cols : Collections) (name : String) (data : List StoredChunk) :
    Collections :=
  (name, data) :: deleteCollection cols name

/-- The stored record built from a chunk in lines 144-160. -/
def storedOfChunk (c : Chunk) : StoredChunk :=
  ⟨c.chunk_id, c.text, c.source_type, c.start_time, c.end_time⟩

/-- Result dict of a successful build_rag_index call (line 163). -/
structure BuildResult where
  indexed_chunks : Nat
  status : String
  deriving Repr, DecidableEq

/-- Model of build_rag_index (lines 105-169): choose the chunking strategy
(segment-based only when segments is a list with more than one entry),
raise ValueError when no chunks result, embed every chunk text via
compute_embeddings (whose exceptions propagate), then replace the
collection named by collection_name with the new records. -/
def build_rag_index (cols : Collections) (apiKey : Option String)
    (remote : String → Option (List ℚ))
    (localModel : List String → Except String (List (List ℚ)))
    (transcript_text : String) (segments : Option (List Seg)) :
    Except String (BuildResult × Collections) :=
  let chunks :=
    match segments with
    | some segs =>
      if segs.length > 1 then chunk_transcript_by_segments segs
      else chunk_transcript_by_text transcript_text
    | none => chunk_transcript_by_text transcript_text
  if chunks.isEmpty then .error "No chunks generated from transcript"
  else
    match compute_embeddings apiKey remote localModel (chunks.map (·.text)) with
    | .error e => .error e
    | .ok _ =>
      .ok (⟨chunks.length, "success"⟩,
           setCollection cols collection_name (chunks.map storedOfChunk))

/-! ## rag_service.py: stats and clear (lines 286-359) -/

/-- The 200-character preview of lines 236 and 316. -/
def text_preview (doc : String) : String :=
  if doc.length > 200 then doc.take 200 ++ "..." else doc

/-- One sample chunk of the stats answer (lines 313-319). -/
structure SampleChunk where
  chunk_id : String
  preview : String
  full_text : String
  source_type : String
  start_time : Option ℚ
  end_time : Option ℚ
  deriving Repr, DecidableEq

/-- Stats answer.  The code returns dicts of different shapes; they share
the indexed flag and the chunk count, and sample_chunks is absent (here
empty) in the two not-indexed shapes. -/
structure IndexStats where
  indexed : Bool
  chunk_count : Nat
  sample_chunks : List SampleChunk
  deriving Repr, DecidableEq

/-- Model of get_index_stats (lines 286-326) on the collection named by its
argument; the source defaults that argument to stats_default_collection. -/
def get_index_stats (cols : Collections) (name : String) : IndexStats :=
  match getCollection cols name with
  | none => ⟨false, 0, []⟩
  | some data =>
    if data.length = 0 then ⟨false, 0, []⟩
    else
      ⟨true, data.length,
       (data.take 5).map fun c =>
         ⟨c.chunk_id, text_preview c.document, c.document,
          c.source_type, c.start_time, c.end_time⟩⟩

/-- Result dict of clear_index. -/
structure ClearResult where
  success : Bool
  deriving Repr, DecidableEq

/-- Model of clear_index (lines 351-359) on the collection named by its
argument; the source defaults that argument to stats_default_collection.
Deleting a non-existent collection raises inside the try, giving the
success = False shape and leaving the state unchanged. -/
def clear_index (cols : Collections) (name : String) : ClearResult × Collections :=
  if (getCollection cols name).isSome then (⟨true⟩, deleteCollection cols name)
  else (⟨false⟩, cols)

/-! ## rag_service.py: keyword scoring and the query pipeline (lines 94-283) -/

/-- Python str.split() with no argument: split on whitespace runs, no empty
tokens. -/
def pyWords (s : String) : List String :=
  (s.split Char.isWhitespace).filter fun w => !(w == "")

/-- Model of keyword_score (lines 94-103): set-based token overlap of the
lowercased whitespace-split tokens, divided by the number of distinct
question tokens; 0 when the question has no tokens. -/
def keyword_score (question text : String) : ℚ :=
  let q_words := (pyWords question.toLower).toFinset
  let t_words := (pyWords text.toLower).toFinset
  if q_words = ∅ then 0
  else ((q_words ∩ t_words).card : ℚ) / (q_words.card : ℚ)

/-- The keyword_scores dict of line 203, as the association list in build
order.  Chunk ids are unique within an index generation (spec section 3), so
list lookup and dict lookup agree. -/
def keyword_scores (question : String) (all_chunks : List StoredChunk) :
    List (String × ℚ) :=
  all_chunks.map fun c => (c.chunk_id, keyword_score question c.document)

/-- keyword_scores.get(chunk_id, 0) of line 229. -/
def kw_of (scores : List (String × ℚ)) (id : String) : ℚ :=
  (scores.lookup id).getD 0

/-- max(keyword_scores.values()) if keyword_scores else 0 (line 204).
Keyword scores are nonnegative, so folding max over 0 agrees with the
Python max on a nonempty dict and with the 0 default on an empty one. -/
def max_keyword (scores : List (String × ℚ)) : ℚ :=
  (scores.map Prod.snd).foldr max 0

/-- One hit of the semantic query results of lines 220-223: parallel entries
of results ids / documents / distances / metadatas, with the metadata
lookups .get("start_time") / .get("end_time") already applied. -/
structure SemHit where
  chunk_id : String
  document : String
  distance : ℚ
  start_time : Option ℚ
  end_time : Option ℚ
  deriving Repr, DecidableEq

/-- A ranked chunk dict of lines 232-239. -/
structure RankedChunk where
  chunk_id : String
  score : ℚ
  text : String
  text_preview : String
  start_time : Option ℚ
  end_time : Option ℚ
  deriving Repr, DecidableEq

/-- The ranked chunk built for one semantic hit: combined score
0.4 * keywordScore + 0.6 * (1 - cosineDistance). -/
def rankedOfHit (scores : List (String × ℚ)) (h : SemHit) : RankedChunk :=
  ⟨h.chunk_id, (2/5 : ℚ) * kw_of scores h.chunk_id + (3/5 : ℚ) * (1 - h.distance),
   h.document, text_preview h.document, h.start_time, h.end_time⟩

/-- The ranked_chunks list of lines 226-239: one entry per semantic hit. -/
def ranked_chunks (question : String) (all_chunks : List StoredChunk)
    (sem : List SemHit) : List RankedChunk :=
  sem.map (rankedOfHit (keyword_scores question all_chunks))

/-- Stable descending insertion by combined score: the inserted element goes
in front of the first strictly smaller score, after equal ones seen so far.
This realizes ranked_chunks.sort(reverse=True) of line 241, which is
the stable Python sort, descending. -/
def insertDesc (x : RankedChunk) : List RankedChunk → List RankedChunk
  | [] => [x]
  | y :: ys => if y.score ≤ x.score then x :: y :: ys else y :: insertDesc x ys

/-- Stable descending sort by combined score. -/
def sortDesc (l : List RankedChunk) : List RankedChunk :=
  l.foldr insertDesc []

/-- Detection of Myanmar script (lines 245-247). -/
def is_burmese (text : String) : Bool :=
  text.data.any fun c => 0x1000 ≤ c.toNat && c.toNat ≤ 0x109F

/-- Refusal message used when the relevance gate rejects a Burmese question
(line 254). -/
def burmese_refusal : String :=
  "ဤမှတ်တမ်းအပေါ် အခြေခံ၍သာ မေးခွန်းများကို ဖြေဆိုနိုင်ပါသည်။ သင့်မေးခွန်းအတွက် သက်ဆိုင်သောအချက်အလက်များ ရှာမတွေ့ပါ။"

/-- Refusal message used when the relevance gate rejects an English question
(line 256). -/
def english_refusal : String :=
  "I can only answer questions based on this transcript. I couldn\u0027t find relevant information to answer your question."

/-- Guidance message returned when no collection exists (line 189). -/
def not_indexed_message : String :=
  "Please index a transcript first before asking questions."

/-- A cached RAG answer value ({"answer": ..., "top_chunks": ...}); as a
nonempty dict it is always Python-truthy, so presence alone decides the
cache hit at line 181. -/
structure CachedAnswer where
  answer : String
  top_chunks : List RankedChunk
  deriving Repr, DecidableEq

/-- Observable outcome of one query_rag call.  gen_invoked records whether
the Gemini generation call of lines 273-275 ran. -/
structure QueryOut where
  answer : String
  top_chunks : List RankedChunk
  from_cache : Bool
  gen_invoked : Bool
  cache : Cache CachedAnswer
  deriving Repr, DecidableEq

/-- The relevance gate of line 252 with top_chunks already computed. -/
def relevance_gate (keyword_threshold maxk : ℚ) (top : List RankedChunk) : Bool :=
  decide (maxk < keyword_threshold) &&
    (match top with
     | [] => true
     | c :: _ => decide (c.score < (3/10 : ℚ)))

/-- Model of query_rag (lines 171-283).  The question embedding (with its
own truncation and local fallback) and the nearest-neighbor search of lines
206-223 are abstracted into the parameter sem, the semantic hits for this
question; the generation call is the parameter gen, applied to the data the
prompt of lines 263-271 is assembled from.  keyword_threshold defaults to
0.2 in the source and the HTTP route calls query_rag with that default. -/
def query_rag (cache : Cache CachedAnswer) (cols : Collections)
    (sem : List SemHit) (gen : String → List RankedChunk → String)
    (question : String) (keyword_threshold : ℚ) : QueryOut :=
  match get_cached_result cache ("rag:" ++ question) "rag_answer" with
  | some c => ⟨c.answer, c.top_chunks, true, false, cache⟩
  | none =>
    match getCollection cols collection_name with
    | none => ⟨not_indexed_message, [], false, false, cache⟩
    | some all_chunks =>
      let scores := keyword_scores question all_chunks
      let maxk := max_keyword scores
      let top := (sortDesc (ranked_chunks question all_chunks sem)).take 3
      if relevance_gate keyword_threshold maxk top then
        let answer := if is_burmese question then burmese_refusal else english_refusal
        ⟨answer, top, false, false,
         set_cached_result cache ("rag:" ++ question) "rag_answer" ⟨answer, top⟩⟩
      else
        let answer := gen question top
        ⟨answer, top, false, true,
         set_cached_result cache ("rag:" ++ question) "rag_answer" ⟨answer, top⟩⟩

/-! ## Claim C3: embedding fallback on remote failure -/

/-- A local embedding model that is perfectly reachable: one vector per
text. -/
def demoLocal : List String → Except String (List (List ℚ)) :=
  fun ts => .ok (ts.map fun t => [(t.length : ℚ)])

/-! ## Claim C7: one vector per input, order, truncation -/

/-- A text one character over the 8000-character truncation cap. -/
def longText : String := String.mk (List.replicate 8001 'a')

/-- A remote embedding provider for the witness: fails on "x", embeds
anything else to its length. -/
def demoRemote : String → Option (List ℚ) :=
  fun t => if t == "x" then none else some [(t.length : ℚ)]

/-- Concrete stored chunk for witnesses. -/
def demoChunk : StoredChunk := ⟨"c0", "alpha beta", "text_chunk", none, none⟩

/-- Concrete semantic hits for witnesses. -/
def demoHit1 : SemHit := ⟨"c0", "alpha beta", 1/2, none, none⟩

/-- A second concrete semantic hit. -/
def demoHit2 : SemHit := ⟨"c1", "gamma", 1/4, none, none⟩

/-- Concrete collection state for witnesses. -/
def demoCols : Collections := [(collection_name, [demoChunk])]

/-- Concrete generation call for witnesses. -/
def demoGen : String → List RankedChunk → String := fun _ _ => "generated"

/-- A semantically distant hit for the gate witness. -/
def demoHitFar : SemHit := ⟨"c0", "alpha beta", 9/10, none, none⟩

/-- A state whose collection exists but holds no chunks. -/
def demoColsEmpty : Collections := [(collection_name, ([] : List StoredChunk))]

/-- The stored record of the single chunk built from the demo transcript. -/
def demoStored : StoredChunk :=
  ⟨"text_0", "Cats are mammals. Dogs are mammals too. Fish live in water.",
   "text_chunk", none, none⟩

/-- A deployment state in which both the really indexed collection
"transcript_chunks" and a collection under the clear_index default name
"lecture_transcript" exist. -/
def c1_state : Collections :=
  [(collection_name, [demoStored]), (stats_default_collection, [demoStored])]

/-- A remote embedding provider that always succeeds. -/
def demoRemoteOk : String → Option (List ℚ) := fun _ => some [0]

/-- The demo transcript of spec section 8. -/
def c2_transcript : String :=
  "Cats are mammals. Dogs are mammals too. Fish live in water."


/-! ## Theorems -/

/-! ## Helper lemmas -/

/-- Option-valued mapM succeeds exactly elementwise, in order. -/
theorem mapM_option_forall2 {α β : Type} (f : α → Option β) :
    ∀ (l : List α) (vs : List β), l.mapM f = some vs →
      List.Forall₂ (fun a b => f a = some b) l vs := by
  intro l
  induction l with
  | nil =>
    intro vs h
    simp only [List.mapM_nil, pure, Option.some.injEq] at h
    subst h
    exact List.Forall₂.nil
  | cons a as ih =>
    intro vs h
    simp only [List.mapM_cons, bind, Option.bind] at h
    cases hfa : f a with
    | none => rw [hfa] at h; simp at h
    | some b =>
      rw [hfa] at h
      cases hrest : as.mapM f with
      | none => rw [hrest] at h; simp [pure] at h
      | some bs =>
        rw [hrest] at h
        simp only [pure, Option.some.injEq] at h
        subst h
        exact List.Forall₂.cons hfa (ih bs hrest)

/-! ## Claim C8: cache idempotence -/

/-- C8 counterexample: the claim fails as stated.  When the expensive
function returns the empty string (a Python-falsy value), the first call
stores it, but the second call with the identical (operation, text) pair
treats the stored value as a miss: it recomputes (the expensive function
runs twice) and reports from_cache = false. -/
theorem c8_counterexample :
    (twoCalls pyTruthyString [] "hello" "translation" (fun _ => "") 7 9).1.invoked = true ∧
    (twoCalls pyTruthyString [] "hello" "translation" (fun _ => "") 7 9).2.invoked = true ∧
    (twoCalls pyTruthyString [] "hello" "translation" (fun _ => "") 7 9).2.from_cache = false := by
  decide

/-- C8 amended: provided the computed result is Python-truthy (for the
string results of the translation service: non-empty), calling the memoized
computation twice with the identical (operation, text) pair invokes the
expensive function at most once; the second call reports from_cache = true
and elapsed time 0 and returns a result equal to that of the first call. -/
theorem computeOrFetch_idempotent {V : Type} (truthy : V → Bool) (cache : Cache V)
    (text operation : String) (f : Unit → V) (e₁ e₂ : ℚ)
    (h : truthy (f ()) = true) :
    (twoCalls truthy cache text operation f e₁ e₂).2.from_cache = true ∧
    (twoCalls truthy cache text operation f e₁ e₂).2.elapsed_ms = 0 ∧
    (twoCalls truthy cache text operation f e₁ e₂).2.result =
      (twoCalls truthy cache text operation f e₁ e₂).1.result ∧
    (twoCalls truthy cache text operation f e₁ e₂).2.invoked = false := by
  cases h1 : (get_cached_result cache text operation).filter truthy with
  | some v =>
    simp [twoCalls, computeOrFetch, h1]
  | none =>
    simp only [twoCalls, computeOrFetch, h1]
    simp [get_cached_result, set_cached_result, List.lookup, Option.filter, h]

/-- Witness for C8 amended at a concrete input. -/
theorem computeOrFetch_idempotent_witness :
    pyTruthyString ((fun _ => "hola") ()) = true ∧
    (twoCalls pyTruthyString [] "hello" "translation" (fun _ => "hola") 5 7).2.from_cache = true ∧
    (twoCalls pyTruthyString [] "hello" "translation" (fun _ => "hola") 5 7).2.elapsed_ms = 0 ∧
    (twoCalls pyTruthyString [] "hello" "translation" (fun _ => "hola") 5 7).2.result =
      (twoCalls pyTruthyString [] "hello" "translation" (fun _ => "hola") 5 7).1.result ∧
    (twoCalls pyTruthyString [] "hello" "translation" (fun _ => "hola") 5 7).2.invoked = false :=
  ⟨by decide,
   computeOrFetch_idempotent pyTruthyString [] "hello" "translation" (fun _ => "hola") 5 7
     (by decide)⟩

/-! ## Claim C10: falsy cached values are misses -/

/-- C10: a cached lookup distinguishes hit from miss by the truthiness of
the stored value, not by key presence.  If a falsy value is stored under
the key of (operation, text), the next call treats it as a miss: the
expensive function is invoked again and its fresh result is returned. -/
theorem falsy_cache_value_is_miss {V : Type} (truthy : V → Bool) (cache : Cache V)
    (text operation : String) (f : Unit → V) (e : ℚ) (v : V)
    (hv : get_cached_result cache text operation = some v)
    (hfalsy : truthy v = false) :
    (computeOrFetch truthy cache text operation f e).invoked = true ∧
    (computeOrFetch truthy cache text operation f e).from_cache = false ∧
    (computeOrFetch truthy cache text operation f e).result = f () := by
  simp [computeOrFetch, hv, Option.filter, hfalsy]

/-- Witness for C10: an empty string is stored for ("translation", "x");
the next call with the same pair recomputes. -/
theorem falsy_cache_value_is_miss_witness :
    get_cached_result (set_cached_result ([] : Cache String) "x" "translation" "") "x" "translation" = some "" ∧
    pyTruthyString "" = false ∧
    (computeOrFetch pyTruthyString (set_cached_result [] "x" "translation" "") "x" "translation" (fun _ => "fresh") 3).invoked = true ∧
    (computeOrFetch pyTruthyString (set_cached_result [] "x" "translation" "") "x" "translation" (fun _ => "fresh") 3).from_cache = false ∧
    (computeOrFetch pyTruthyString (set_cached_result [] "x" "translation" "") "x" "translation" (fun _ => "fresh") 3).result = "fresh" :=
  ⟨by decide, by decide,
   (falsy_cache_value_is_miss pyTruthyString _ "x" "translation" (fun _ => "fresh") 3 ""
     (by decide) (by decide)).1,
   (falsy_cache_value_is_miss pyTruthyString _ "x" "translation" (fun _ => "fresh") 3 ""
     (by decide) (by decide)).2.1,
   (falsy_cache_value_is_miss pyTruthyString _ "x" "translation" (fun _ => "fresh") 3 ""
     (by decide) (by decide)).2.2⟩

/-- C3 counterexample: the claim fails as stated for missing credentials.
With no GEMINI_API_KEY, compute_embeddings raises ValueError immediately
even though the local fallback model is perfectly reachable; the local
fallback is never consulted. -/
theorem c3_counterexample :
    compute_embeddings none (fun _ => some [0]) demoLocal ["hi"] =
      .error "GEMINI_API_KEY not found" ∧
    demoLocal ["hi"] = .ok [[2]] := by
  refine ⟨rfl, ?_⟩
  have h2 : "hi".length = 2 := rfl
  simp only [demoLocal, List.map, h2]
  norm_num

/-- C3 amended: once a credential is configured, a remote embedding failure
on any text of the batch (quota, network, invalid key at call time) falls
back transparently to the local model for the entire batch and returns its
vectors (a failure of the fallback itself propagates); but when no remote
credential is available, compute_embeddings raises ValueError immediately
without attempting the local fallback, reachable or not. -/
theorem compute_embeddings_fallback (apiKey : Option String) (k : String)
    (remote : String → Option (List ℚ))
    (localModel : List String → Except String (List (List ℚ)))
    (texts : List String)
    (hk : apiKey = some k)
    (hfail : texts.mapM (fun t => remote (truncate8000 t)) = none) :
    compute_embeddings apiKey remote localModel texts = localModel texts ∧
    compute_embeddings none remote localModel texts =
      .error "GEMINI_API_KEY not found" := by
  subst hk
  constructor
  · simp only [compute_embeddings]
    rw [hfail]
  · rfl

/-- Witness for C3 amended: a remote provider that always fails and a batch
of two texts. -/
theorem compute_embeddings_fallback_witness :
    compute_embeddings (some "key") (fun _ => none) demoLocal ["ab", "cde"] =
      demoLocal ["ab", "cde"] ∧
    compute_embeddings none (fun _ => none) demoLocal ["ab", "cde"] =
      .error "GEMINI_API_KEY not found" :=
  compute_embeddings_fallback (some "key") "key" (fun _ => none) demoLocal
    ["ab", "cde"] rfl (by rfl)

/-- C7 counterexample: the claim fails as stated on the fallback path.
With a remote provider that fails, the 8001-character input is handed to
the local model untruncated: the result is the local vector of the full
8001-character text, not the vector of the 8000-character truncation. -/
theorem c7_counterexample :
    longText.length = 8001 ∧
    compute_embeddings (some "key") (fun _ => none) demoLocal [longText] =
      demoLocal [longText] ∧
    demoLocal [longText] = .ok [[(8001 : ℚ)]] ∧
    demoLocal [truncate8000 longText] = .ok [[(8000 : ℚ)]] ∧
    compute_embeddings (some "key") (fun _ => none) demoLocal [longText] ≠
      demoLocal [truncate8000 longText] := by
  have hlen : longText.length = 8001 := by
    simp only [longText, String.length_mk, List.length_replicate]
  have hfail : [longText].mapM (fun t => (fun _ => (none : Option (List ℚ))) (truncate8000 t)) = none := by
    simp [List.mapM, List.mapM.loop]
  have htr : truncate8000 longText = String.mk (List.replicate 8000 'a') := by
    rw [truncate8000, if_pos (by rw [hlen]; norm_num)]
    rw [String.ext_iff, String.data_take]
    simp only [longText, List.take_replicate]
    norm_num
  have hcomp : compute_embeddings (some "key") (fun _ => none) demoLocal [longText] =
      demoLocal [longText] := by
    simp only [compute_embeddings]
    rw [hfail]
  have hl1 : demoLocal [longText] = .ok [[(8001 : ℚ)]] := by
    simp only [demoLocal, List.map, hlen]
    norm_num
  have hl2 : demoLocal [truncate8000 longText] = .ok [[(8000 : ℚ)]] := by
    rw [htr]
    simp only [demoLocal, List.map, String.length_mk, List.length_replicate]
    norm_num
  refine ⟨hlen, hcomp, hl1, hl2, ?_⟩
  rw [hcomp, hl1, hl2]
  norm_num

/-- C7 amended: compute_embeddings is order-preserving with one vector per
input.  On the primary remote path every individual input is truncated to
at most 8000 characters before being embedded; on the local fallback path
the original untruncated batch is passed whole to the local model and its
answer is returned unchanged. -/
theorem compute_embeddings_order_truncation (k : String)
    (remote : String → Option (List ℚ))
    (localModel : List String → Except String (List (List ℚ)))
    (texts₁ : List String) (vs : List (List ℚ)) (texts₂ : List String)
    (hvs : texts₁.mapM (fun t => remote (truncate8000 t)) = some vs)
    (hfail : texts₂.mapM (fun t => remote (truncate8000 t)) = none) :
    compute_embeddings (some k) remote localModel texts₁ = .ok vs ∧
    vs.length = texts₁.length ∧
    List.Forall₂ (fun t v => remote (truncate8000 t) = some v) texts₁ vs ∧
    compute_embeddings (some k) remote localModel texts₂ = localModel texts₂ := by
  have hf2 := mapM_option_forall2 (fun t => remote (truncate8000 t)) texts₁ vs hvs
  refine ⟨?_, hf2.length_eq.symm, hf2, ?_⟩
  · simp only [compute_embeddings]
    rw [hvs]
  · simp only [compute_embeddings]
    rw [hfail]

/-- Witness for C7 amended: the batch ["ab"] takes the remote path and
["x"] the fallback path. -/
theorem compute_embeddings_order_truncation_witness :
    compute_embeddings (some "key") demoRemote demoLocal ["ab"] = .ok [[(2 : ℚ)]] ∧
    ([[(2 : ℚ)]] : List (List ℚ)).length = (["ab"] : List String).length ∧
    List.Forall₂ (fun t v => demoRemote (truncate8000 t) = some v) ["ab"] [[(2 : ℚ)]] ∧
    compute_embeddings (some "key") demoRemote demoLocal ["x"] = demoLocal ["x"] :=
  compute_embeddings_order_truncation "key" demoRemote demoLocal
    ["ab"] [[(2 : ℚ)]] ["x"] (by decide) (by decide)

/-! ## Chunker lemmas -/

/-- A window of one sentence joins to that sentence. -/
theorem intercalate_singleton (sep x : List Char) : List.intercalate sep [x] = x := by
  simp [List.intercalate]

/-- Unfolding one step of the space join. -/
theorem intercalate_cons_cons (sep x y : List Char) (zs : List (List Char)) :
    List.intercalate sep (x :: y :: zs) = x ++ sep ++ List.intercalate sep (y :: zs) := by
  simp [List.intercalate, List.flatten_cons]

/-- Every sentence of a window is an infix of the space-joined window. -/
theorem mem_infix_intercalate (sep : List Char) :
    ∀ (w : List (List Char)) (s : List Char), s ∈ w → s <:+: List.intercalate sep w := by
  intro w
  induction w with
  | nil => intro s hs; cases hs
  | cons x ys ih =>
    intro s hs
    cases ys with
    | nil =>
      rw [List.mem_singleton] at hs
      subst hs
      rw [intercalate_singleton]
    | cons y zs =>
      rw [intercalate_cons_cons]
      rcases List.mem_cons.mp hs with h | h
      · subst h
        exact List.IsPrefix.isInfix ((List.prefix_append s _).trans (List.prefix_append _ _))
      · exact ((ih s h).trans (List.IsSuffix.isInfix (List.suffix_append _ _)))

/-- Non-whitespace content survives passage to a superlist. -/
theorem hasNonWs_mono {s t : List Char} (h : s <:+: t) (hs : hasNonWs s = true) :
    hasNonWs t = true := by
  simp only [hasNonWs, List.any_eq_true] at hs ⊢
  obtain ⟨c, hc, hcw⟩ := hs
  exact ⟨c, h.subset hc, hcw⟩

/-- What membership in one window chunk candidate means. -/
theorem mem_textChunk {c : Chunk} {i : Nat} {w : List (List Char)} (h : c ∈ textChunk i w) :
    c = ⟨"text_" ++ toString i, String.mk (List.intercalate [' '] w), none, none, "text_chunk"⟩ ∧
    hasNonWs (List.intercalate [' '] w) = true := by
  simp only [textChunk] at h
  split at h
  · next hws =>
    rw [List.mem_singleton] at h
    exact ⟨h, hws⟩
  · cases h

/-- Every chunk of the window loop is the chunk of the window of 5
sentences starting 3 places beyond some earlier multiple of the stride. -/
theorem chunkWindows_mem_char :
    ∀ (n i : Nat) (ss : List (List Char)) (c : Chunk), ss.length ≤ n →
      c ∈ chunkWindows i ss →
      ∃ m, c ∈ textChunk (i + 3 * m) ((ss.drop (3 * m)).take 5) := by
  intro n
  induction n with
  | zero =>
    intro i ss c hlen hc
    have : ss = [] := List.eq_nil_of_length_eq_zero (Nat.le_zero.mp hlen)
    subst this
    cases hc
  | succ n ih =>
    intro i ss c hlen hc
    match ss with
    | [] => cases hc
    | [s0] =>
      refine ⟨0, ?_⟩
      simpa using hc
    | [s0, s1] =>
      refine ⟨0, ?_⟩
      simpa using hc
    | s0 :: s1 :: s2 :: rest' =>
      rw [chunkWindows, List.mem_append] at hc
      rcases hc with hc | hc
      · refine ⟨0, ?_⟩
        simpa [List.take_succ_cons] using hc
      · have hlen' : rest'.length ≤ n := by
          simp only [List.length_cons] at hlen
          omega
        obtain ⟨m, hm⟩ := ih (i + 3) rest' c hlen' hc
        refine ⟨m + 1, ?_⟩
        have h1 : i + 3 * (m + 1) = i + 3 + 3 * m := by ring
        have h2 : (s0 :: s1 :: s2 :: rest').drop (3 * (m + 1)) = rest'.drop (3 * m) := by
          have : 3 * (m + 1) = 3 * m + 1 + 1 + 1 := by ring
          rw [this, List.drop_succ_cons, List.drop_succ_cons, List.drop_succ_cons]
        rw [h1, h2]
        exact hm

/-- Every sentence with non-whitespace content is an infix of the text of
some chunk emitted by the window loop. -/
theorem chunkWindows_cover :
    ∀ (n i : Nat) (ss : List (List Char)) (s : List Char), ss.length ≤ n →
      s ∈ ss → hasNonWs s = true →
      ∃ c ∈ chunkWindows i ss, s <:+: c.text.data := by
  intro n
  induction n with
  | zero =>
    intro i ss s hlen hs _
    have : ss = [] := List.eq_nil_of_length_eq_zero (Nat.le_zero.mp hlen)
    subst this
    cases hs
  | succ n ih =>
    intro i ss s hlen hs hws
    have window_case :
        ∀ (w : List (List Char)), s ∈ w →
          ∃ c ∈ textChunk i w, s <:+: c.text.data := by
      intro w hw
      have hinf := mem_infix_intercalate [' '] w s hw
      have hjw : hasNonWs (List.intercalate [' '] w) = true := hasNonWs_mono hinf hws
      refine ⟨⟨"text_" ++ toString i, String.mk (List.intercalate [' '] w), none, none,
        "text_chunk"⟩, ?_, hinf⟩
      simp [textChunk, hjw]
    match ss with
    | [] => cases hs
    | [s0] =>
      rw [chunkWindows]
      exact window_case [s0] hs
    | [s0, s1] =>
      rw [chunkWindows]
      exact window_case [s0, s1] hs
    | s0 :: s1 :: s2 :: rest' =>
      rw [chunkWindows]
      rcases List.mem_cons.mp hs with h0 | hs1
      · obtain ⟨c, hc, hinf⟩ := window_case (s0 :: s1 :: s2 :: rest'.take 2)
          (by rw [h0]; exact List.mem_cons_self _ _)
        exact ⟨c, List.mem_append_left _ hc, hinf⟩
      rcases List.mem_cons.mp hs1 with h1 | hs2
      · obtain ⟨c, hc, hinf⟩ := window_case (s0 :: s1 :: s2 :: rest'.take 2)
          (by rw [h1]; exact List.mem_cons_of_mem _ (List.mem_cons_self _ _))
        exact ⟨c, List.mem_append_left _ hc, hinf⟩
      rcases List.mem_cons.mp hs2 with h2 | hrest
      · obtain ⟨c, hc, hinf⟩ := window_case (s0 :: s1 :: s2 :: rest'.take 2)
          (by rw [h2]
              exact List.mem_cons_of_mem _ (List.mem_cons_of_mem _ (List.mem_cons_self _ _)))
        exact ⟨c, List.mem_append_left _ hc, hinf⟩
      · have hlen' : rest'.length ≤ n := by
          simp only [List.length_cons] at hlen
          omega
        obtain ⟨c, hc, hinf⟩ := ih (i + 3) rest' s hlen' hrest hws
        exact ⟨c, List.mem_append_right _ hc, hinf⟩

/-- Lists with non-whitespace content are nonempty. -/
theorem hasNonWs_ne_nil {t : List Char} (h : hasNonWs t = true) : t ≠ [] := by
  intro hn
  subst hn
  simp [hasNonWs] at h

/-! ## Claim C9: chunk texts are non-empty -/

/-- C9 counterexample: the claim fails as stated for segment-based
chunking.  A segment whose text key is absent (or empty) produces a chunk
whose text is the empty string. -/
theorem c9_counterexample :
    chunk_transcript_by_segments [⟨none, none, none⟩] =
      [⟨"seg_0", "", none, none, "asr_segment"⟩] ∧
    ∃ c ∈ chunk_transcript_by_segments [⟨none, none, none⟩], c.text = "" := by
  constructor
  · rfl
  · exact ⟨⟨"seg_0", "", none, none, "asr_segment"⟩, by rw [show chunk_transcript_by_segments [⟨none, none, none⟩] = [⟨"seg_0", "", none, none, "asr_segment"⟩] from rfl]; exact List.mem_singleton.mpr rfl, rfl⟩

/-- C9 amended: every chunk produced by text-window chunking has non-empty
(indeed non-whitespace) text, because whitespace-only windows are skipped;
a chunk produced by segment-based chunking carries the text field of its segment
verbatim, so it is non-empty provided every segment carries a non-empty
text value. -/
theorem chunk_text_nonempty (text : String) (segments : List Seg)
    (hseg : ∀ s ∈ segments, s.text.getD "" ≠ "") :
    (∀ c ∈ chunk_transcript_by_text text, hasNonWs c.text.data = true ∧ c.text ≠ "") ∧
    (∀ c ∈ chunk_transcript_by_segments segments, c.text ≠ "") := by
  constructor
  · intro c hc
    obtain ⟨m, hm⟩ := chunkWindows_mem_char (splitSentences text.data).length 0
      (splitSentences text.data) c le_rfl hc
    obtain ⟨hceq, hws⟩ := mem_textChunk hm
    have hdata : c.text.data = List.intercalate [' ']
        (((splitSentences text.data).drop (3 * m)).take 5) := by
      rw [hceq]
    refine ⟨by rw [hdata]; exact hws, ?_⟩
    intro hemp
    have := congrArg String.data hemp
    rw [hdata] at this
    exact hasNonWs_ne_nil hws this
  · intro c hc
    rw [chunk_transcript_by_segments, List.mem_mapIdx] at hc
    obtain ⟨i, hi, hfc⟩ := hc
    have : c.text = (segments[i]).text.getD "" := by
      rw [← hfc]
    rw [this]
    exact hseg segments[i] (List.getElem_mem hi)

/-- Witness for C9 amended at a concrete transcript and segment list. -/
theorem chunk_text_nonempty_witness :
    (∀ s ∈ [Seg.mk (some 0) (some 5) (some "A"), Seg.mk (some 5) (some 10) (some "B")],
      s.text.getD "" ≠ "") ∧
    ((∀ c ∈ chunk_transcript_by_text "Hi.", hasNonWs c.text.data = true ∧ c.text ≠ "") ∧
     (∀ c ∈ chunk_transcript_by_segments
        [Seg.mk (some 0) (some 5) (some "A"), Seg.mk (some 5) (some 10) (some "B")],
        c.text ≠ "")) :=
  ⟨by decide,
   chunk_text_nonempty "Hi."
     [Seg.mk (some 0) (some 5) (some "A"), Seg.mk (some 5) (some 10) (some "B")]
     (by decide)⟩

/-! ## Claim C6: text-window chunking -/

/-- C6 counterexample: the claim fails as stated for the non-empty,
whitespace-only transcript " ".  Its single sentence is " ", the only
window is whitespace-only and is skipped, no chunk is produced, and so the
sentence " " appears in no chunk. -/
theorem c6_counterexample :
    splitSentences " ".data = [[' ']] ∧
    chunk_transcript_by_text " " = [] ∧
    ¬ (∀ s ∈ splitSentences " ".data,
        ∃ c ∈ chunk_transcript_by_text " ", s <:+: c.text.data) := by
  refine ⟨rfl, rfl, ?_⟩
  intro h
  obtain ⟨c, hc, _⟩ := h [' '] (by rw [show splitSentences " ".data = [[' ']] from rfl]; exact List.mem_singleton.mpr rfl)
  rw [show chunk_transcript_by_text " " = [] from rfl] at hc
  cases hc

/-- C6 amended: text-window chunking splits the text into sentences at
sentence-terminal punctuation and emits, for window start indices
0, 3, 6, ..., the window of the next 5 sentences joined by single spaces
under chunk_id "text_" + start index, skipping whitespace-only windows; and
every sentence that contains a non-whitespace character appears in at least
one chunk (a whitespace-only sentence of an all-whitespace transcript is in
no chunk, as the counterexample shows). -/
theorem chunk_by_text_windows_cover (text : String) (s : List Char)
    (hs : s ∈ splitSentences text.data) (hws : hasNonWs s = true) :
    (∀ c ∈ chunk_transcript_by_text text, ∃ m,
      c.chunk_id = "text_" ++ toString (3 * m) ∧
      c.text = String.mk (List.intercalate [' ']
        (((splitSentences text.data).drop (3 * m)).take 5)) ∧
      hasNonWs c.text.data = true ∧
      c.start_time = none ∧ c.end_time = none ∧ c.source_type = "text_chunk") ∧
    ∃ c ∈ chunk_transcript_by_text text, s <:+: c.text.data := by
  constructor
  · intro c hc
    obtain ⟨m, hm⟩ := chunkWindows_mem_char (splitSentences text.data).length 0
      (splitSentences text.data) c le_rfl hc
    rw [Nat.zero_add] at hm
    obtain ⟨hceq, hnws⟩ := mem_textChunk hm
    refine ⟨m, ?_, ?_, ?_, ?_, ?_, ?_⟩ <;> rw [hceq]
    exact hnws
  · exact chunkWindows_cover (splitSentences text.data).length 0
      (splitSentences text.data) s le_rfl hs hws

/-- Witness for C6 amended: the sentence "B." of a four-sentence
transcript. -/
theorem chunk_by_text_windows_cover_witness :
    ['B', '.'] ∈ splitSentences "A. B. C. D.".data ∧
    hasNonWs ['B', '.'] = true ∧
    ((∀ c ∈ chunk_transcript_by_text "A. B. C. D.", ∃ m,
      c.chunk_id = "text_" ++ toString (3 * m) ∧
      c.text = String.mk (List.intercalate [' ']
        (((splitSentences "A. B. C. D.".data).drop (3 * m)).take 5)) ∧
      hasNonWs c.text.data = true ∧
      c.start_time = none ∧ c.end_time = none ∧ c.source_type = "text_chunk") ∧
    ∃ c ∈ chunk_transcript_by_text "A. B. C. D.", ['B', '.'] <:+: c.text.data) :=
  ⟨by decide, by decide,
   chunk_by_text_windows_cover "A. B. C. D." ['B', '.'] (by decide) (by decide)⟩

/-! ## Ranking lemmas -/

/-- Inserting permutes to consing. -/
theorem insertDesc_perm (x : RankedChunk) : ∀ l, (insertDesc x l).Perm (x :: l) := by
  intro l
  induction l with
  | nil => exact List.Perm.refl _
  | cons y ys ih =>
    rw [insertDesc]
    split
    · exact List.Perm.refl _
    · exact (List.Perm.cons y ih).trans (List.Perm.swap x y ys)

/-- The stable descending sort permutes its input. -/
theorem sortDesc_perm : ∀ l, (sortDesc l).Perm l := by
  intro l
  induction l with
  | nil => exact List.Perm.refl _
  | cons a l ih =>
    exact (insertDesc_perm a (sortDesc l)).trans (List.Perm.cons a ih)

/-- Inserting into a descending list keeps it descending. -/
theorem insertDesc_sorted (x : RankedChunk) :
    ∀ l, l.Sorted (fun a b => b.score ≤ a.score) →
      (insertDesc x l).Sorted (fun a b => b.score ≤ a.score) := by
  intro l
  induction l with
  | nil => intro _; simp [insertDesc]
  | cons y ys ih =>
    intro h
    rw [List.sorted_cons] at h
    rw [insertDesc]
    split
    · next hyx =>
      rw [List.sorted_cons]
      constructor
      · intro z hz
        rcases List.mem_cons.mp hz with rfl | hz'
        · exact hyx
        · exact le_trans (h.1 z hz') hyx
      · rw [List.sorted_cons]
        exact h
    · next hyx =>
      rw [List.sorted_cons]
      constructor
      · intro z hz
        rcases List.mem_cons.mp ((insertDesc_perm x ys).mem_iff.mp hz) with rfl | hz'
        · exact le_of_not_le hyx
        · exact h.1 z hz'
      · exact ih h.2

/-- The sorted ranked list is descending in combined score. -/
theorem sortDesc_sorted : ∀ l, (sortDesc l).Sorted (fun a b => b.score ≤ a.score) := by
  intro l
  induction l with
  | nil => simp [sortDesc]
  | cons a l ih =>
    exact insertDesc_sorted a (sortDesc l) ih

/-! ## Claim C5: hybrid ranking -/

/-- C5: on a fresh (uncached) query against an existing collection, the
returned top chunks are the semantic candidates scored by
0.4 * keywordScore + 0.6 * (1 - cosineDistance) (with keywordScore the
set-based token-overlap ratio computed by keyword_score), sorted by
combined score descending and truncated to the top 3; every returned chunk
arises from one of the semantic hits (the candidate set is never expanded
beyond them), one candidate exists per hit, and every candidate left out of
the top 3 scores no higher than every returned one. -/
theorem query_ranking_top3 (cache : Cache CachedAnswer) (cols : Collections)
    (sem : List SemHit) (gen : String → List RankedChunk → String)
    (question : String) (kt : ℚ) (all_chunks : List StoredChunk)
    (hc : get_cached_result cache ("rag:" ++ question) "rag_answer" = none)
    (hcol : getCollection cols collection_name = some all_chunks) :
    (query_rag cache cols sem gen question kt).top_chunks =
      (sortDesc (ranked_chunks question all_chunks sem)).take 3 ∧
    ((query_rag cache cols sem gen question kt).top_chunks).Sorted
      (fun a b => b.score ≤ a.score) ∧
    ((query_rag cache cols sem gen question kt).top_chunks).length ≤ 3 ∧
    (∀ c ∈ (query_rag cache cols sem gen question kt).top_chunks,
      ∃ h ∈ sem, c = rankedOfHit (keyword_scores question all_chunks) h) ∧
    (ranked_chunks question all_chunks sem).length = sem.length ∧
    (∀ x ∈ (sortDesc (ranked_chunks question all_chunks sem)).drop 3,
      ∀ y ∈ (query_rag cache cols sem gen question kt).top_chunks, x.score ≤ y.score) := by
  have htop : (query_rag cache cols sem gen question kt).top_chunks =
      (sortDesc (ranked_chunks question all_chunks sem)).take 3 := by
    simp only [query_rag, hc, hcol]
    split <;> rfl
  rw [htop]
  have hsorted := sortDesc_sorted (ranked_chunks question all_chunks sem)
  refine ⟨rfl, ?_, ?_, ?_, ?_, ?_⟩
  · exact hsorted.sublist (List.take_sublist 3 _)
  · exact le_trans (List.length_take_le 3 _) le_rfl
  · intro c hcmem
    have h1 : c ∈ sortDesc (ranked_chunks question all_chunks sem) :=
      (List.take_sublist 3 _).subset hcmem
    have h2 : c ∈ ranked_chunks question all_chunks sem :=
      (sortDesc_perm _).mem_iff.mp h1
    rw [ranked_chunks, List.mem_map] at h2
    obtain ⟨h, hh, hhc⟩ := h2
    exact ⟨h, hh, hhc.symm⟩
  · rw [ranked_chunks, List.length_map]
  · intro x hx y hy
    have hsplit := hsorted
    rw [← List.take_append_drop 3 (sortDesc (ranked_chunks question all_chunks sem)),
      List.Sorted, List.pairwise_append] at hsplit
    exact hsplit.2.2 y hy x hx

/-- Witness for C5 at a concrete fresh query over one stored chunk and two
semantic hits. -/
theorem query_ranking_top3_witness :
    (query_rag [] demoCols [demoHit1, demoHit2] demoGen "alpha" (1/5)).top_chunks =
      (sortDesc (ranked_chunks "alpha" [demoChunk] [demoHit1, demoHit2])).take 3 ∧
    ((query_rag [] demoCols [demoHit1, demoHit2] demoGen "alpha" (1/5)).top_chunks).Sorted
      (fun a b => b.score ≤ a.score) ∧
    ((query_rag [] demoCols [demoHit1, demoHit2] demoGen "alpha" (1/5)).top_chunks).length ≤ 3 ∧
    (∀ c ∈ (query_rag [] demoCols [demoHit1, demoHit2] demoGen "alpha" (1/5)).top_chunks,
      ∃ h ∈ [demoHit1, demoHit2], c = rankedOfHit (keyword_scores "alpha" [demoChunk]) h) ∧
    (ranked_chunks "alpha" [demoChunk] [demoHit1, demoHit2]).length =
      ([demoHit1, demoHit2] : List SemHit).length ∧
    (∀ x ∈ (sortDesc (ranked_chunks "alpha" [demoChunk] [demoHit1, demoHit2])).drop 3,
      ∀ y ∈ (query_rag [] demoCols [demoHit1, demoHit2] demoGen "alpha" (1/5)).top_chunks,
        x.score ≤ y.score) :=
  query_ranking_top3 [] demoCols [demoHit1, demoHit2] demoGen "alpha" (1/5) [demoChunk]
    (by rfl) (by rfl)

/-! ## Claim C4: the relevance gate -/

/-- C4: on a fresh query over a built index, when the maximum keyword score
over all stored chunks is below 0.2 and the ranked top list is empty or its
top combined score is below 0.3, query_rag returns the fixed refusal
message — the Burmese one exactly when the question contains a character of
the Myanmar script block — without invoking the generation call, still
returning the computed top chunks, with from_cache = false. -/
theorem relevance_gate_refusal (cache : Cache CachedAnswer) (cols : Collections)
    (sem : List SemHit) (gen : String → List RankedChunk → String)
    (question : String) (all_chunks : List StoredChunk)
    (hc : get_cached_result cache ("rag:" ++ question) "rag_answer" = none)
    (hcol : getCollection cols collection_name = some all_chunks)
    (hmax : max_keyword (keyword_scores question all_chunks) < 1/5)
    (htop : ∀ c ∈ ((sortDesc (ranked_chunks question all_chunks sem)).take 3).head?,
      c.score < 3/10) :
    (query_rag cache cols sem gen question (1/5)).answer =
      (if is_burmese question then burmese_refusal else english_refusal) ∧
    (query_rag cache cols sem gen question (1/5)).gen_invoked = false ∧
    (query_rag cache cols sem gen question (1/5)).top_chunks =
      (sortDesc (ranked_chunks question all_chunks sem)).take 3 ∧
    (query_rag cache cols sem gen question (1/5)).from_cache = false := by
  have hgate : relevance_gate (1/5) (max_keyword (keyword_scores question all_chunks))
      ((sortDesc (ranked_chunks question all_chunks sem)).take 3) = true := by
    simp only [relevance_gate, Bool.and_eq_true, decide_eq_true_eq]
    refine ⟨hmax, ?_⟩
    cases hh : (sortDesc (ranked_chunks question all_chunks sem)).take 3 with
    | nil => rfl
    | cons c rest =>
      have hcs : c.score < 3/10 := by
        apply htop
        rw [hh]
        rfl
      exact decide_eq_true hcs
  simp only [query_rag, hc, hcol, hgate, if_true]
  exact ⟨trivial, trivial, trivial, trivial⟩

/-- Witness for C4: the question "zebra" is asked over an existing empty
chunk set with one distant semantic hit, so the gate fires: maximum keyword
score 0 < 0.2 and top combined score 0.4 * 0 + 0.6 * (1 - 9/10) = 3/50
< 0.3. -/
theorem relevance_gate_refusal_witness :
    (query_rag [] demoColsEmpty [demoHitFar] demoGen "zebra" (1/5)).answer =
      (if is_burmese "zebra" then burmese_refusal else english_refusal) ∧
    (query_rag [] demoColsEmpty [demoHitFar] demoGen "zebra" (1/5)).gen_invoked = false ∧
    (query_rag [] demoColsEmpty [demoHitFar] demoGen "zebra" (1/5)).top_chunks =
      (sortDesc (ranked_chunks "zebra" [] [demoHitFar])).take 3 ∧
    (query_rag [] demoColsEmpty [demoHitFar] demoGen "zebra" (1/5)).from_cache = false :=
  relevance_gate_refusal [] demoColsEmpty [demoHitFar] demoGen "zebra" []
    (by rfl) (by rfl)
    (by simp only [keyword_scores, List.map_nil, max_keyword, List.foldr_nil]
        norm_num)
    (by intro c hcmem
        have hh : ((sortDesc (ranked_chunks "zebra" [] [demoHitFar])).take 3).head? =
            some (rankedOfHit [] demoHitFar) := rfl
        rw [hh, Option.mem_def, Option.some.injEq] at hcmem
        subst hcmem
        simp only [rankedOfHit, kw_of, List.lookup_nil, Option.getD_none, demoHitFar]
        norm_num)

/-! ## Claims C1 and C2: the collection-name mismatch -/

/-- On a fresh query with an existing collection, the answer is a refusal
message or the generation output, never the "please index first" guidance. -/
theorem query_rag_answer_not_guidance (cache : Cache CachedAnswer) (cols : Collections)
    (sem : List SemHit) (gen : String → List RankedChunk → String)
    (question : String) (kt : ℚ) (all_chunks : List StoredChunk)
    (hc : get_cached_result cache ("rag:" ++ question) "rag_answer" = none)
    (hcol : getCollection cols collection_name = some all_chunks)
    (hgen : gen question ((sortDesc (ranked_chunks question all_chunks sem)).take 3) ≠
      not_indexed_message) :
    (query_rag cache cols sem gen question kt).answer ≠ not_indexed_message := by
  simp only [query_rag, hc, hcol]
  split
  · split
    · show burmese_refusal ≠ not_indexed_message
      decide
    · show english_refusal ≠ not_indexed_message
      decide
  · exact hgen

/-- C1 fails on the code: clear_index (with its source default argument
"lecture_transcript") can report success while the collection
"transcript_chunks" that build_rag_index writes and query_rag reads
survives, so the subsequent fresh query still answers from the previously
built index instead of returning the "not indexed" guidance; and on a
state holding only the really indexed collection, clear_index cannot
succeed at all. -/
theorem c1_clear_then_query :
    (clear_index c1_state stats_default_collection).1.success = true ∧
    getCollection (clear_index c1_state stats_default_collection).2 collection_name =
      some [demoStored] ∧
    (query_rag [] (clear_index c1_state stats_default_collection).2 [] demoGen
        "What lives in water?" (1/5)).answer ≠ not_indexed_message ∧
    (clear_index [(collection_name, [demoStored])] stats_default_collection).1.success =
      false := by
  refine ⟨by decide, by decide, ?_, by decide⟩
  apply query_rag_answer_not_guidance [] _ [] demoGen "What lives in water?" (1/5) [demoStored]
  · rfl
  · rfl
  · decide

/-- C2 fails on the code: a successful build of the demo transcript indexes
1 chunk into "transcript_chunks", but get_index_stats with its source
default argument "lecture_transcript" then reports indexed = false and
chunk_count = 0; the built chunks are only visible when the stats call is
pointed at "transcript_chunks" explicitly. -/
theorem c2_build_then_stats :
    build_rag_index [] (some "key") demoRemoteOk demoLocal c2_transcript none =
      .ok (⟨1, "success"⟩, [(collection_name, [demoStored])]) ∧
    get_index_stats [(collection_name, [demoStored])] stats_default_collection =
      ⟨false, 0, []⟩ ∧
    get_index_stats [(collection_name, [demoStored])] collection_name =
      ⟨true, 1, [⟨"text_0", demoStored.document, demoStored.document,
        "text_chunk", none, none⟩]⟩ := by
  refine ⟨rfl, by decide, by decide⟩
